import Mathlib

/-!
Verification development for the coordinate-sanitizer library
(`src/index.js`, class `CoordinateSanitizer`).

The JavaScript core is shallowly embedded: numbers are modelled as exact
rationals (`ℚ`); each regular expression of the source is implemented as a
deterministic matcher that realises the backtracking behaviour of the
original pattern on its anchored grammar; strings are Lean `String`s
(lists of characters).  JS `-0` produced by `parseInt("-00")` or by
`0 * -1` is modelled as the integer `0`, which is observationally
equivalent for every use the library makes of it (`< 0` comparison,
`Math.abs`, decimal printing).
-/

namespace CoordSan

/-- Whitespace class of JavaScript regular expressions (`\s`) and of
`String.prototype.trim`. -/
def isJsWs (c : Char) : Bool :=
  c = ' ' || c = '\t' || c = '\n' || c.toNat = 11 || c.toNat = 12 || c = '\r' ||
  c.toNat = 0xA0 || c.toNat = 0x1680 ||
  (0x2000 ≤ c.toNat && c.toNat ≤ 0x200A) ||
  c.toNat = 0x2028 || c.toNat = 0x2029 || c.toNat = 0x202F ||
  c.toNat = 0x205F || c.toNat = 0x3000 || c.toNat = 0xFEFF

/-- Digit class `\d` (ASCII digits). -/
def isDig (c : Char) : Bool := '0' ≤ c && c ≤ '9'

/-! ## Input normalizer (`cleanInput`)

The source applies six single-character folds followed by three
whitespace-collapsing global replaces and a trim:

* `/[""'']/g → '"'` (the class is the two ASCII quote characters, each
  written twice),
* `/[°ºª]/g → 'd'`,
* `/[′']/g → "'"` (U+2032 and ASCII apostrophe),
* `/[″"]/g → '"'` (U+2033 and ASCII double quote),
* `/[–—−]/g → '-'`,
* `/[·•]/g → ','` (U+00B7 and U+2022),
* `/\s*[,;]\s*/g → ','`, `/\s*:\s*/g → ':'`, `/\s+/g → ' '`, `.trim()`.

The six folds are character-to-character and are composed pointwise in
source order. -/

/-- Pointwise composition of the six character-fold replaces, applied in
the order of the source. -/
def foldChar (c : Char) : Char :=
  -- step 1: ASCII double quote and apostrophe both fold to '"'
  let c := if c = '"' || c = '\'' then '"' else c
  -- step 2: degree-like glyphs fold to 'd'
  let c := if c.toNat = 0xB0 || c.toNat = 0xBA || c.toNat = 0xAA then 'd' else c
  -- step 3: prime (U+2032) and apostrophe fold to '\''
  let c := if c.toNat = 0x2032 || c = '\'' then '\'' else c
  -- step 4: double prime (U+2033) and '"' fold to '"'
  let c := if c.toNat = 0x2033 || c = '"' then '"' else c
  -- step 5: en dash, em dash, minus sign fold to '-'
  let c := if c.toNat = 0x2013 || c.toNat = 0x2014 || c.toNat = 0x2212 then '-' else c
  -- step 6: middle dot and bullet fold to ','
  if c.toNat = 0xB7 || c.toNat = 0x2022 then ',' else c

/-- Flush of the separator-collapsing scanner: pending whitespace is
emitted verbatim when no separator was seen, otherwise one output
separator per input separator (the surrounding whitespace is absorbed by
the match `\s*[,;]\s*`). -/
def sepFlush (sep : Char) (pend : List Char) (cnt : Nat) : List Char :=
  if cnt = 0 then pend.reverse else List.replicate cnt sep

/-- Global replace `\s*[,;]\s*` → `','` (and, with other parameters,
`\s*:\s*` → `':'`): a left-to-right scan in which a run of whitespace is
pending until either a separator absorbs it or an ordinary character
forces it to be emitted. -/
def sepScan (sep : Char) (isSep : Char → Bool) :
    List Char → Nat → List Char → List Char
  | pend, cnt, [] => sepFlush sep pend cnt
  | pend, cnt, c :: cs =>
    if isJsWs c then sepScan sep isSep (c :: pend) cnt cs
    else if isSep c then sepScan sep isSep pend (cnt + 1) cs
    else sepFlush sep pend cnt ++ c :: sepScan sep isSep [] 0 cs

/-- Global replace `/\s+/g → ' '`: each maximal whitespace run becomes a
single space.  The boolean records whether the previous character was
whitespace. -/
def wsScan : Bool → List Char → List Char
  | _, [] => []
  | inWs, c :: cs =>
    if isJsWs c then
      if inWs then wsScan true cs else ' ' :: wsScan true cs
    else c :: wsScan false cs

/-- Leading-whitespace trim on a character list. -/
def trimL (l : List Char) : List Char := l.dropWhile isJsWs

/-- JavaScript `String.prototype.trim`: whitespace removed at both ends. -/
def jsTrim (l : List Char) : List Char :=
  ((trimL l).reverse.dropWhile isJsWs).reverse

/-- The `cleanInput` normalizer on character lists. -/
def cleanList (l : List Char) : List Char :=
  jsTrim (wsScan false
    (sepScan ':' (fun c => c = ':') [] 0
      (sepScan ',' (fun c => c = ',' || c = ';') [] 0
        (l.map foldChar))))

/-- The `cleanInput` normalizer of the source (`src/index.js`,
`cleanInput`). -/
def cleanInput (s : String) : String := ⟨cleanList s.data⟩

/-! ## Numbers

`parseInt`/`parseFloat` are only ever applied to the capture groups of
the anchored patterns, which have the shape `[+-]? digits` respectively
`[+-]? digits (. digits)?`; on that domain they are exact rational
readers.  Rendering of numbers follows the decimal notation JavaScript
uses for the values the library produces; it is exact on integers and on
`toFixed` output.  Binary floating-point rounding is below the precision
any claim inspects and is not modelled. -/

/-- Decimal digit characters of a natural number, most significant
first; the fuel argument only forces structural recursion and `n + 1`
steps always suffice. -/
def natDigitsAux : Nat → Nat → List Char
  | 0, _ => []
  | fuel + 1, n =>
    if n < 10 then [Nat.digitChar n]
    else natDigitsAux fuel (n / 10) ++ [Nat.digitChar (n % 10)]

/-- Decimal digit characters of a natural number, most significant
first. -/
def natDigits (n : Nat) : List Char := natDigitsAux (n + 1) n

/-- Natural number of a digit-character list (the usual left fold). -/
def digitsVal (l : List Char) : Nat :=
  l.foldl (fun a c => a * 10 + (c.toNat - '0'.toNat)) 0

/-- JavaScript `parseInt` on a `[+-]? digits` capture.  `parseInt("-00")`
yields JS `-0`, modelled as the integer `0`. -/
def parseIntCap (l : List Char) : Int :=
  match l with
  | '-' :: ds => -(digitsVal ds : Int)
  | '+' :: ds => (digitsVal ds : Int)
  | ds => (digitsVal ds : Int)

/-- JavaScript `parseFloat` on a `[+-]? digits (. digits)?` capture. -/
def parseFloatCap (l : List Char) : ℚ :=
  match l with
  | '-' :: ds => -(parseFloatCap ds)
  | '+' :: ds => parseFloatCap ds
  | ds =>
    let intPart := ds.takeWhile isDig
    let rest := ds.dropWhile isDig
    match rest with
    | '.' :: fs => (digitsVal intPart : ℚ) + (digitsVal fs : ℚ) / (10 : ℚ) ^ fs.length
    | _ => (digitsVal intPart : ℚ)

/-- Decimal rendering of a non-negative rational: exact for integers; for
non-integral values the expansion is emitted to at most 17 fractional
digits (an abstraction of the shortest-round-trip rendering of JS
doubles; no claim inspects non-integral renderings). -/
def fracDigitChars : Nat → ℚ → List Char
  | 0, _ => []
  | fuel + 1, q =>
    if q = 0 then []
    else
      let q10 := q * 10
      let d := Int.toNat ⌊q10⌋
      Nat.digitChar d :: fracDigitChars fuel (q10 - ⌊q10⌋)

/-- Decimal rendering of a non-negative rational (see `jsNumToString`). -/
def numToStringNN (q : ℚ) : String :=
  if q.den = 1 then ⟨natDigits q.num.toNat⟩
  else ⟨natDigits (Int.toNat ⌊q⌋) ++ '.' :: fracDigitChars 17 (q - ⌊q⌋)⟩

/-- JavaScript number-to-string for the values this library prints. -/
def jsNumToString (q : ℚ) : String :=
  if q < 0 then "-" ++ numToStringNN (-q) else numToStringNN q

/-- Sign prefix of `toFixed` output. -/
def sgnChars (q : ℚ) : List Char := if q < 0 then ['-'] else []

/-- Magnitude of `toFixed`: the absolute value scaled by `10 ^ f` and
rounded half-up (ECMA: the closest scaled integer, ties to the larger,
applied to the magnitude after the sign is split off). -/
def fixScaled (q : ℚ) (f : Nat) : Nat := Int.toNat ⌊|q| * (10 : ℚ) ^ f + 1 / 2⌋

/-- Digit string of the scaled magnitude, left-padded with zeros to at
least `f + 1` digits (the specification pads to `f + 1` when the digit
count is at most `f`). -/
def fixPadded (q : ℚ) (f : Nat) : List Char :=
  if (natDigits (fixScaled q f)).length ≤ f then
    List.replicate (f + 1 - (natDigits (fixScaled q f)).length) '0' ++
      natDigits (fixScaled q f)
  else natDigits (fixScaled q f)

/-- Characters of `Number.prototype.toFixed`: sign, then the padded
digit string with the decimal point inserted `f` digits from the end
(no point when `f = 0`). -/
def toFixedData (q : ℚ) (f : Nat) : List Char :=
  if f = 0 then sgnChars q ++ natDigits (fixScaled q 0)
  else
    sgnChars q ++ (fixPadded q f).take ((fixPadded q f).length - f) ++
      '.' :: (fixPadded q f).drop ((fixPadded q f).length - f)

/-- JavaScript `Number.prototype.toFixed`.  Magnitudes of `10 ^ 21` and
above fall back to the plain `ToString` rendering (ECMA step "If x ≥
10^21, let m be ToString(x)"), so the result loses the fixed
`f`-fractional-digit shape there; the fallback is modelled by
`jsNumToString`, the decimal rendering of the exact rational, where JS
prints the shortest round-trip (exponential) form of the nearest double
— either way no fixed-point shape.  A precision outside 0..100 makes JS
throw a `RangeError`; no result record exists on that path and the
total embedding does not model the crash. -/
def toFixed (q : ℚ) (f : Nat) : String :=
  if (10 : ℚ) ^ 21 ≤ |q| then jsNumToString q else ⟨toFixedData q f⟩

/-- JavaScript `String.prototype.padStart(n, c)`. -/
def padStart (s : String) (n : Nat) (c : Char) : String :=
  if n ≤ s.length then s else ⟨List.replicate (n - s.length) c ++ s.data⟩

/-! ## Axis grammar matchers

Each anchored pattern of the source is realised as a deterministic
matcher.  For the sexagesimal patterns the separator piece
`\s*X\s*` (where the class `X` also contains `\s`) accepts either a
non-empty whitespace run, or a single marker character with optional
whitespace on both sides; on the anchored grammar this is the unique
behaviour of the backtracking engine. -/

/-- Non-whitespace members of the hour-boundary class `[h:\s]` with the
`i` flag. -/
def isHourMark (c : Char) : Bool := c = 'h' || c = 'H' || c = ':'

/-- Non-whitespace members of the degree-boundary class `[d°:\s]` with
the `i` flag. -/
def isDegMark (c : Char) : Bool := c = 'd' || c = 'D' || c = ':' || c.toNat = 0xB0

/-- Non-whitespace members of the minute-boundary class `[m:'"′\s]` with
the `i` flag. -/
def isMinMark (c : Char) : Bool :=
  c = 'm' || c = 'M' || c = ':' || c = '\'' || c = '"' || c.toNat = 0x2032

/-- Members of the trailing-seconds class `[s"'″\s]` with the `i` flag
(whitespace included). -/
def isSecTrail (c : Char) : Bool :=
  c = 's' || c = 'S' || c = '"' || c = '\'' || c.toNat = 0x2033 || isJsWs c

/-- Consume a `\s* X \s*` separator where the class `X` contains the
whitespace class and the marker predicate `isMark`; fails when nothing is
consumed and no marker is present. -/
def eatSep (isMark : Char → Bool) (l : List Char) : Option (List Char) :=
  let w1 := l.takeWhile isJsWs
  let r1 := l.dropWhile isJsWs
  match r1 with
  | c :: cs => if isMark c then some (cs.dropWhile isJsWs)
               else if w1.length = 0 then none else some r1
  | [] => if w1.length = 0 then none else some []

/-- Matcher for the symbolic sexagesimal patterns `raHMS` and `decDMS`:
optional leading sign (DEC only), one or two digits, separator, one or
two digits, separator, one or two digits with optional fraction, then
only trailing-class characters.  Returns the three capture groups. -/
def matchSexa (allowSign : Bool) (isMark1 isMark2 isTrail : Char → Bool)
    (l : List Char) : Option (List Char × List Char × List Char) :=
  let (s1, l1) : List Char × List Char :=
    match l with
    | c :: cs => if allowSign && (c = '+' || c = '-') then ([c], cs) else ([], l)
    | [] => ([], l)
  let d1 := l1.takeWhile isDig
  let l2 := l1.dropWhile isDig
  if d1.length = 0 || 2 < d1.length then none else
  match eatSep isMark1 l2 with
  | none => none
  | some l3 =>
    let d2 := l3.takeWhile isDig
    let l4 := l3.dropWhile isDig
    if d2.length = 0 || 2 < d2.length then none else
    match eatSep isMark2 l4 with
    | none => none
    | some l5 =>
      let d3 := l5.takeWhile isDig
      let l6 := l5.dropWhile isDig
      if d3.length = 0 || 2 < d3.length then none else
      let (frac, l7) : List Char × List Char :=
        match l6 with
        | '.' :: rest =>
          let fs := rest.takeWhile isDig
          if fs.length = 0 then ([], l6) else ('.' :: fs, rest.dropWhile isDig)
        | _ => ([], l6)
      if l7.all isTrail then some (s1 ++ d1, d2, d3 ++ frac) else none

/-- Matcher for the compact patterns `raHMSCompact` and `decDMSCompact`:
optional sign (DEC only), exactly six digits, optional fraction,
end of input. -/
def matchCompact (allowSign : Bool) (l : List Char) :
    Option (List Char × List Char × List Char) :=
  let (s1, l1) : List Char × List Char :=
    match l with
    | c :: cs => if allowSign && (c = '+' || c = '-') then ([c], cs) else ([], l)
    | [] => ([], l)
  let ds := l1.takeWhile isDig
  let l2 := l1.dropWhile isDig
  if ds.length ≠ 6 then none else
  match l2 with
  | [] => some (s1 ++ ds.take 2, ds.drop 2 |>.take 2, ds.drop 4)
  | '.' :: rest =>
    let fs := rest.takeWhile isDig
    if fs.length = 0 then none
    else if (rest.dropWhile isDig).length ≠ 0 then none
    else some (s1 ++ ds.take 2, ds.drop 2 |>.take 2, ds.drop 4 ++ '.' :: fs)
  | _ => none

/-- Matcher for the bare-decimal patterns `raDecimal` and `decDecimal`:
optional sign (DEC only), one to three digits, optional fraction,
optional single `d`/`°`, end of input (these two patterns carry no `i`
flag, so an upper-case `D` is rejected).  Returns the numeric capture
group. -/
def matchDecimal (allowSign : Bool) (l : List Char) : Option (List Char) :=
  let (s1, l1) : List Char × List Char :=
    match l with
    | c :: cs => if allowSign && (c = '+' || c = '-') then ([c], cs) else ([], l)
    | [] => ([], l)
  let ds := l1.takeWhile isDig
  let l2 := l1.dropWhile isDig
  if ds.length = 0 || 3 < ds.length then none else
  let (frac, l3) : List Char × List Char :=
    match l2 with
    | '.' :: rest =>
      let fs := rest.takeWhile isDig
      if fs.length = 0 then ([], l2) else ('.' :: fs, rest.dropWhile isDig)
    | _ => ([], l2)
  match l3 with
  | [] => some (s1 ++ ds ++ frac)
  | c :: rest =>
    if (c = 'd' || c.toNat = 0xB0) && rest = [] then some (s1 ++ ds ++ frac)
    else none

/-- Optional fraction `(?:\.\d+)?` at the end of an aladin triple: a dot
must be followed by at least one digit, which is then consumed
greedily. -/
def eatFrac (rest : List Char) : Option (List Char) :=
  match rest with
  | '.' :: rest2 =>
    if (rest2.takeWhile isDig).length = 0 then none
    else some (rest2.dropWhile isDig)
  | _ => some rest

/-- Matcher for the `aladinFormat` pattern
`^\d{2}\s\d{2}\s\d{2}(?:\.\d+)?,\s[+-]?\d{2}\s\d{2}\s\d{2}(?:\.\d+)?$`.
The helper consumes one sexagesimal triple `\d{2}\s\d{2}\s\d{2}(\.\d+)?`
and returns the rest. -/
def eatAladinTriple (l : List Char) : Option (List Char) :=
  match l with
  | a :: b :: w1 :: c :: d :: w2 :: e :: f :: rest =>
    if isDig a && isDig b && isJsWs w1 && isDig c && isDig d && isJsWs w2
        && isDig e && isDig f then
      eatFrac rest
    else none
  | _ => none

/-- Optional `[+-]?` sign of the second aladin triple. -/
def dropSign (l : List Char) : List Char :=
  match l with
  | c :: cs => if c = '+' || c = '-' then cs else l
  | [] => l

/-- Test of the full `aladinFormat` pattern. -/
def aladinTest (l : List Char) : Bool :=
  match eatAladinTriple l with
  | none => false
  | some r1 =>
    match r1 with
    | c :: w :: r2 =>
      if c = ',' && isJsWs w then
        match eatAladinTriple (dropSign r2) with
        | some [] => true
        | _ => false
      else false
    | _ => false

/-! ## Security gatekeeper (`containsMaliciousContent`) -/

/-- ASCII lower-casing, the canonicalisation relevant to the
case-insensitive patterns of the source (non-`u` regexes fold ASCII
letters only). -/
def lowerAscii (c : Char) : Char :=
  if 'A' ≤ c && c ≤ 'Z' then Char.ofNat (c.toNat + 32) else c

/-- ASCII upper-casing; model of `String.prototype.toUpperCase` on the
alphabet the catalog patterns inspect. -/
def upperAscii (c : Char) : Char :=
  if 'a' ≤ c && c ≤ 'z' then Char.ofNat (c.toNat - 32) else c

/-- Substring test (contiguous). -/
def hasInfix (pat : List Char) (l : List Char) : Bool :=
  match l with
  | [] => pat.isPrefixOf ([] : List Char)
  | _ :: cs => pat.isPrefixOf l || hasInfix pat cs

/-- Test of `/<[^>]*>/`: some `<` is followed, strictly later, by a
`>`. -/
def hasTag : List Char → Bool
  | [] => false
  | c :: cs => (c = '<' && cs.contains '>') || hasTag cs

/-- Word-character class `\w`. -/
def isWordChar (c : Char) : Bool :=
  isDig c || ('a' ≤ c && c ≤ 'z') || ('A' ≤ c && c ≤ 'Z') || c = '_'

/-- Test of `/on\w+\s*=/i` at the head of the list: `on`, at least one
word character (the maximal run, the only viable one under
backtracking), optional whitespace, `=`. -/
def handlerAt (l : List Char) : Bool :=
  match l with
  | a :: b :: rest =>
    if lowerAscii a = 'o' && lowerAscii b = 'n' then
      let w := rest.takeWhile isWordChar
      if w.length = 0 then false
      else
        match (rest.dropWhile isWordChar).dropWhile isJsWs with
        | '=' :: _ => true
        | _ => false
    else false
  | _ => false

/-- Test of `/on\w+\s*=/i` anywhere in the list. -/
def hasHandler : List Char → Bool
  | [] => false
  | l@(_ :: cs) => handlerAt l || hasHandler cs

/-- Test of `/[\x00-\x1F\x7F]/`: any C0 control character or DEL. -/
def hasControl (l : List Char) : Bool :=
  l.any (fun c => c.toNat ≤ 0x1F || c.toNat = 0x7F)

/-- The `containsMaliciousContent` denylist of the source. -/
def containsMaliciousContent (s : String) : Bool :=
  hasTag s.data || hasInfix "javascript:".data (s.data.map lowerAscii) ||
  hasHandler s.data || hasControl s.data

/-! ## Classifier (`looksLikeCoordinates` and the catalog patterns) -/

/-- Test of a `^PFX\s?\d+$` catalog pattern against the upper-cased
input: the literal prefix, at most one whitespace character, at least
one digit, end of input. -/
def catPrefixDigits (pfx : List Char) (l : List Char) : Bool :=
  match l.drop pfx.length with
  | [] => false
  | rest =>
    if pfx.isPrefixOf l then
      let rest := match rest with
                  | w :: cs => if isJsWs w then cs else rest
                  | [] => rest
      rest.length ≠ 0 && rest.all isDig
    else false

/-- Test of `^Sh2[-\s]?\d+$` (upper-cased: `SH2`, optional `-` or
whitespace, digits). -/
def catSh2 (l : List Char) : Bool :=
  if ("SH2".data).isPrefixOf l then
    let rest := l.drop 3
    let rest := match rest with
                | w :: cs => if w = '-' || isJsWs w then cs else rest
                | [] => rest
    rest.length ≠ 0 && rest.all isDig
  else false

/-- Test of `^PK\s?[\d+\-.\+]+$`. -/
def catPK (l : List Char) : Bool :=
  if ("PK".data).isPrefixOf l then
    let rest := l.drop 2
    let rest := match rest with
                | w :: cs => if isJsWs w then cs else rest
                | [] => rest
    rest.length ≠ 0 && rest.all (fun c => isDig c || c = '+' || c = '-' || c = '.')
  else false

/-- Upper-case ASCII letter class `[A-Z]` (the input is upper-cased
before the catalog test, so the `i` flag adds nothing on this
alphabet). -/
def isUpperAlpha (c : Char) : Bool := 'A' ≤ c && c ≤ 'Z'

/-- Test of `^[A-Z]{2,}\s+[A-Z]{2,}$` (two all-letter tokens). -/
def catTwoWords (l : List Char) : Bool :=
  let w1 := l.takeWhile isUpperAlpha
  let r1 := l.dropWhile isUpperAlpha
  let ws := r1.takeWhile isJsWs
  let r2 := r1.dropWhile isJsWs
  2 ≤ w1.length && 1 ≤ ws.length && 2 ≤ r2.length && r2.all isUpperAlpha

/-- Test of `^\d+\s+[A-Z]{2,}$` ("51 ERI" style). -/
def catNumWord (l : List Char) : Bool :=
  let w1 := l.takeWhile isDig
  let r1 := l.dropWhile isDig
  let ws := r1.takeWhile isJsWs
  let r2 := r1.dropWhile isJsWs
  1 ≤ w1.length && 1 ≤ ws.length && 2 ≤ r2.length && r2.all isUpperAlpha

/-- Test of `^[A-Z]\s+[A-Z]{2,}$` ("R AND" style). -/
def catLetterWord (l : List Char) : Bool :=
  let w1 := l.takeWhile isUpperAlpha
  let r1 := l.dropWhile isUpperAlpha
  let ws := r1.takeWhile isJsWs
  let r2 := r1.dropWhile isJsWs
  w1.length = 1 && 1 ≤ ws.length && 2 ≤ r2.length && r2.all isUpperAlpha

/-- The `catalogPatterns` list of the source, tested against the
upper-cased input. -/
def catalogAny (l : List Char) : Bool :=
  catPrefixDigits "M".data l || catPrefixDigits "NGC".data l ||
  catPrefixDigits "IC".data l || catPrefixDigits "UGC".data l ||
  catPrefixDigits "PGC".data l || catPrefixDigits "HIP".data l ||
  catPrefixDigits "HD".data l || catPrefixDigits "SAO".data l ||
  catSh2 l || catPrefixDigits "BARNARD".data l || catPK l ||
  catPrefixDigits "LBN".data l ||
  catTwoWords l || catNumWord l || catLetterWord l

/-- Test of `/\d+[X]\s*\d+/`-shaped indicators: a digit immediately
before a marker, then optional whitespace, then a digit. -/
def indMarkDigit (isMark : Char → Bool) : List Char → Bool
  | d :: m :: rest =>
    (isDig d && isMark m &&
      (match rest.dropWhile isJsWs with
       | c :: _ => isDig c
       | [] => false)) || indMarkDigit isMark (m :: rest)
  | _ => false

/-- Test of `/\d+[sS"″]/`: a digit immediately before a seconds
marker. -/
def indSeconds : List Char → Bool
  | d :: m :: rest =>
    (isDig d && (m = 's' || m = 'S' || m = '"' || m.toNat = 0x2033)) ||
      indSeconds (m :: rest)
  | _ => false

/-- Test of `/[+-]\s*\d+/`: a sign, optional whitespace, a digit. -/
def indSigned : List Char → Bool
  | [] => false
  | c :: cs =>
    ((c = '+' || c = '-') &&
      (match cs.dropWhile isJsWs with
       | d :: _ => isDig d
       | [] => false)) || indSigned cs

/-- First position of an adjacent `digit . digit` triple; returns the
rest of the list starting after the fractional digit. -/
def afterDDD : List Char → Option (List Char)
  | a :: b :: c :: rest =>
    if isDig a && b = '.' && isDig c then some (c :: rest)
    else afterDDD (b :: c :: rest)
  | _ => none

/-- Test of `/\d+\.\d+.*,.*\d+\.\d+/` (a decimal pair separated by a
comma; the normalized input contains no line terminators, so `.` is any
character). -/
def indDecimalPair (l : List Char) : Bool :=
  match afterDDD l with
  | none => false
  | some r1 =>
    match r1.dropWhile (fun c => c ≠ ',') with
    | _ :: r2 => (afterDDD r2).isSome
    | [] => false

/-- Test of `/RA|DEC|DECL/i` (`DECL` is subsumed by `DEC`). -/
def indLabel (l : List Char) : Bool :=
  let low := l.map lowerAscii
  hasInfix "ra".data low || hasInfix "dec".data low

/-- The `looksLikeCoordinates` classifier of the source: catalog match
wins (not coordinates), otherwise any indicator marks the input as
coordinate-like. -/
def looksLikeCoordinates (s : String) : Bool :=
  if s.data.length = 0 then false
  else if catalogAny (s.data.map upperAscii) then false
  else
    indMarkDigit isHourMark s.data ||
    indMarkDigit (fun c => c = 'd' || c = 'D' || c.toNat = 0xB0) s.data ||
    indSigned s.data ||
    indMarkDigit (fun c => c = 'm' || c = 'M' || c = '\'' || c.toNat = 0x2032) s.data ||
    indSeconds s.data ||
    indDecimalPair s.data ||
    indLabel s.data

/-! ## Combined-coordinate splitter (`combinedPattern`) -/

/-- Search of `^(.+?)\s*[,;·•]\s*(.+)$` after the first (mandatory)
character: the first separator whose right side is not all whitespace
wins; everything before it is the raw left group, everything after the
raw right group. -/
def findSplit : List Char → Option (List Char × List Char)
  | [] => none
  | c :: cs =>
    if (c = ',' || c = ';' || c.toNat = 0xB7 || c.toNat = 0x2022) &&
        (cs.dropWhile isJsWs).length ≠ 0 then
      some ([], cs)
    else
      match findSplit cs with
      | some (a, b) => some (c :: a, b)
      | none => none

/-- Match of `combinedPattern`: the left group is non-empty, so the
separator search starts after the first character.  The source trims
both groups before axis parsing; the trims commute with the lazy
whitespace handling of the pattern, so the returned groups are the raw
splits (trimmed by the caller). -/
def splitCombined (l : List Char) : Option (List Char × List Char) :=
  match l with
  | [] => none
  | c :: cs =>
    match findSplit cs with
    | some (a, b) => some (c :: a, b)
    | none => none

/-! ## Space-separated number tokenizer
(`input.match(/([+-]?\d+(?:\.\d+)?)/g)`) -/

/-- Leading number token at a digit: digits, then an optional fraction
when a dot is followed by at least one digit.  Returns the token without
sign and the rest. -/
def grabNum (l : List Char) : List Char × List Char :=
  match l.dropWhile isDig with
  | '.' :: r2 =>
    if (r2.takeWhile isDig).length = 0 then (l.takeWhile isDig, l.dropWhile isDig)
    else (l.takeWhile isDig ++ '.' :: r2.takeWhile isDig, r2.dropWhile isDig)
  | _ => (l.takeWhile isDig, l.dropWhile isDig)

/-- All matches of the global pattern `([+-]?\d+(?:\.\d+)?)`, scanning
left to right; a sign participates in a match only when immediately
followed by a digit.  The fuel argument only forces structural
recursion: every recursive call consumes at least one character, so
`length + 1` steps always suffice. -/
def numTokensAux : Nat → List Char → List (List Char)
  | 0, _ => []
  | _ + 1, [] => []
  | fuel + 1, c :: cs =>
    if isDig c then
      (grabNum (c :: cs)).1 :: numTokensAux fuel (grabNum (c :: cs)).2
    else if c = '+' || c = '-' then
      match cs with
      | [] => []
      | d :: ds =>
        if isDig d then
          (c :: (grabNum (d :: ds)).1) :: numTokensAux fuel (grabNum (d :: ds)).2
        else numTokensAux fuel (d :: ds)
    else numTokensAux fuel cs

/-- All matches of the global pattern `([+-]?\d+(?:\.\d+)?)`. -/
def numTokens (l : List Char) : List (List Char) := numTokensAux (l.length + 1) l

/-! ## Data model -/

/-- Configuration options of a sanitizer instance (defaults as in the
constructor). -/
structure Options where
  outputFormat : String := "aladin"
  precision : Nat := 6
  validateRanges : Bool := true
  strictMode : Bool := false
deriving Repr, DecidableEq

/-- Successful per-axis parse record: decimal value and component
breakdown (`hours`/`degrees` are stored in the shared field `big`).
Components are rationals, as in the source, where the space-separated
path stores `parseFloat` results in them.  The `format` tag is absent on
the space-separated path. -/
structure Axis where
  decimal : ℚ
  big : ℚ
  minutes : ℚ
  seconds : ℚ
  format : Option String
deriving Repr, DecidableEq

/-- Result metadata; every field is absent on failure results (`{}` in
the source). -/
structure Metadata where
  inputFormat : Option String := none
  outputFormat : Option String := none
  ra : Option Axis := none
  dec : Option Axis := none
deriving Repr, DecidableEq

/-- The result record of `sanitizeCoordinates` (`createResult`). -/
structure SanitizeResult where
  isValid : Bool
  coordinates : String
  error : Option String
  metadata : Metadata
deriving Repr, DecidableEq

/-- The `createResult` helper of the source. -/
def createResult (isValid : Bool) (coordinates : String) (error : Option String)
    (metadata : Metadata := {}) : SanitizeResult :=
  ⟨isValid, coordinates, error, metadata⟩

/-! ## Unit conversions -/

/-- The `hmsToDecimal` conversion: hours, minutes, seconds to decimal
hours. -/
def hmsToDecimal (hours minutes seconds : ℚ) : ℚ :=
  hours + minutes / 60 + seconds / 3600

/-- The `decimalToHMS` conversion (`Math.floor` is the integer floor). -/
def decimalToHMS (decimal : ℚ) : ℚ × ℚ × ℚ :=
  let hours : ℚ := (⌊decimal⌋ : ℚ)
  let minutesDecimal := (decimal - hours) * 60
  let minutes : ℚ := (⌊minutesDecimal⌋ : ℚ)
  (hours, minutes, (minutesDecimal - minutes) * 60)

/-- The `dmsToDecimal` conversion: the sign is read off the (possibly
zero) degrees component. -/
def dmsToDecimal (degrees minutes seconds : ℚ) : ℚ :=
  let sign : ℚ := if degrees < 0 then -1 else 1
  sign * (|degrees| + minutes / 60 + seconds / 3600)

/-- The `decimalToDMS` conversion: magnitude-first truncation with the
sign re-applied to the degree component only (JS `0 * -1 = -0` is the
rational `0`). -/
def decimalToDMS (decimal : ℚ) : ℚ × ℚ × ℚ :=
  let sign : ℚ := if decimal < 0 then -1 else 1
  let absDecimal := |decimal|
  let degrees : ℚ := (⌊absDecimal⌋ : ℚ) * sign
  let minutesDecimal := (absDecimal - (⌊absDecimal⌋ : ℚ)) * 60
  let minutes : ℚ := (⌊minutesDecimal⌋ : ℚ)
  (degrees, minutes, (minutesDecimal - minutes) * 60)

/-! ## Range validators -/

/-- The `validateRA` range check: `0 ≤ RA < 24` hours. -/
def validateRA (decimal : ℚ) : Option String :=
  if decimal < 0 || 24 ≤ decimal then
    some ("RA out of range: " ++ jsNumToString decimal ++ " (must be 0-24 hours)")
  else none

/-- The `validateDEC` range check: `-90 ≤ DEC ≤ 90` degrees. -/
def validateDEC (decimal : ℚ) : Option String :=
  if decimal < -90 || 90 < decimal then
    some ("DEC out of range: " ++ jsNumToString decimal ++ " (must be -90 to +90 degrees)")
  else none

/-! ## Axis parsers -/

/-- The `parseRA` axis parser: symbolic sexagesimal, compact
sexagesimal, then bare decimal, in that order. -/
def parseRA (l : List Char) : Except String Axis :=
  match matchSexa false isHourMark isMinMark isSecTrail l with
  | some (g1, g2, g3) =>
    let hours : ℚ := (parseIntCap g1 : ℚ)
    let minutes : ℚ := (parseIntCap g2 : ℚ)
    let seconds : ℚ := parseFloatCap g3
    if hours < 0 || minutes < 0 || seconds < 0 then
      Except.error ("Invalid RA format: " ++ String.mk l ++
        " (negative values not allowed in HMS)")
    else
      Except.ok ⟨hmsToDecimal hours minutes seconds, hours, minutes, seconds, some "hms"⟩
  | none =>
  match matchCompact false l with
  | some (g1, g2, g3) =>
    let hours : ℚ := (parseIntCap g1 : ℚ)
    let minutes : ℚ := (parseIntCap g2 : ℚ)
    let seconds : ℚ := parseFloatCap g3
    if hours < 0 || minutes < 0 || seconds < 0 then
      Except.error ("Invalid RA format: " ++ String.mk l ++
        " (negative values not allowed in HMS)")
    else
      Except.ok ⟨hmsToDecimal hours minutes seconds, hours, minutes, seconds,
        some "hms-compact"⟩
  | none =>
  match matchDecimal false l with
  | some g1 =>
    let decimal := parseFloatCap g1
    let (hours, minutes, seconds) := decimalToHMS decimal
    Except.ok ⟨decimal, hours, minutes, seconds, some "decimal"⟩
  | none => Except.error ("Invalid RA format: " ++ String.mk l)

/-- The `parseDEC` axis parser: symbolic sexagesimal, compact
sexagesimal, then bare decimal, in that order; signs are allowed and no
negativity check is performed. -/
def parseDEC (l : List Char) : Except String Axis :=
  match matchSexa true isDegMark isMinMark isSecTrail l with
  | some (g1, g2, g3) =>
    let degrees : ℚ := (parseIntCap g1 : ℚ)
    let minutes : ℚ := (parseIntCap g2 : ℚ)
    let seconds : ℚ := parseFloatCap g3
    Except.ok ⟨dmsToDecimal degrees minutes seconds, degrees, minutes, seconds, some "dms"⟩
  | none =>
  match matchCompact true l with
  | some (g1, g2, g3) =>
    let degrees : ℚ := (parseIntCap g1 : ℚ)
    let minutes : ℚ := (parseIntCap g2 : ℚ)
    let seconds : ℚ := parseFloatCap g3
    Except.ok ⟨dmsToDecimal degrees minutes seconds, degrees, minutes, seconds,
      some "dms-compact"⟩
  | none =>
  match matchDecimal true l with
  | some g1 =>
    let decimal := parseFloatCap g1
    let (degrees, minutes, seconds) := decimalToDMS decimal
    Except.ok ⟨decimal, degrees, minutes, seconds, some "decimal"⟩
  | none => Except.error ("Invalid DEC format: " ++ String.mk l)

/-! ## Output formatters -/

/-- RA half of the `formatAladin` renderer. -/
def aladinRA (ra : Axis) : String :=
  padStart (jsNumToString ra.big) 2 '0' ++ " " ++
  padStart (jsNumToString ra.minutes) 2 '0' ++ " " ++
  padStart (toFixed ra.seconds 3) 6 '0'

/-- DEC half of the `formatAladin` renderer: a `+` sign is prepended for
non-negative decimals; the degree field is the signed component rendered
and zero-padded to width 2; minutes and seconds are rendered from their
absolute values. -/
def aladinDec (dec : Axis) : String :=
  (if 0 ≤ dec.decimal then "+" else "") ++
  padStart (jsNumToString dec.big) 2 '0' ++ " " ++
  padStart (jsNumToString |dec.minutes|) 2 '0' ++ " " ++
  padStart (toFixed |dec.seconds| 3) 6 '0'

/-- The `formatAladin` renderer: `"HH MM SS.SSS, ±DD MM SS.SSS"`. -/
def formatAladin (ra dec : Axis) : String :=
  aladinRA ra ++ ", " ++ aladinDec dec

/-- The `formatDecimal` renderer. -/
def formatDecimal (opts : Options) (ra dec : Axis) : String :=
  toFixed ra.decimal opts.precision ++ ", " ++ toFixed dec.decimal opts.precision

/-- The `formatHMSDMS` renderer. -/
def formatHMSDMS (ra dec : Axis) : String :=
  jsNumToString ra.big ++ "h " ++ jsNumToString ra.minutes ++ "m " ++
  toFixed ra.seconds 3 ++ "s, " ++
  (if 0 ≤ dec.decimal then "+" else "") ++ jsNumToString dec.big ++ "° " ++
  jsNumToString |dec.minutes| ++ "' " ++ toFixed |dec.seconds| 3 ++ "\""

/-- The `formatOutput` dispatcher (default branch renders aladin). -/
def formatOutput (opts : Options) (ra dec : Axis) : String :=
  if opts.outputFormat = "aladin" then formatAladin ra dec
  else if opts.outputFormat = "decimal" then formatDecimal opts ra dec
  else if opts.outputFormat = "hms-dms" then formatHMSDMS ra dec
  else formatAladin ra dec

/-! ## Pipeline -/

/-- Success result of a parsed coordinate pair (shared tail of
`parseCombinedCoordinates` and `parseSpaceSeparatedCoordinates`). -/
def coordSuccess (opts : Options) (ra dec : Axis) : SanitizeResult :=
  createResult true (formatOutput opts ra dec) none
    ⟨some "coordinates", some opts.outputFormat, some ra, some dec⟩

/-- The `parseCombinedCoordinates` stage: both axes parsed, optional
range validation (RA first), then formatting. -/
def parseCombinedCoordinates (opts : Options) (raPart decPart : List Char) :
    SanitizeResult :=
  match parseRA raPart, parseDEC decPart with
  | Except.error e, _ =>
    createResult false "" (some ("Invalid coordinates: " ++ e))
  | Except.ok _, Except.error e =>
    createResult false "" (some ("Invalid coordinates: " ++ e))
  | Except.ok ra, Except.ok dec =>
    if opts.validateRanges then
      match validateRA ra.decimal with
      | some e => createResult false "" (some e)
      | none =>
        match validateDEC dec.decimal with
        | some e => createResult false "" (some e)
        | none => coordSuccess opts ra dec
    else coordSuccess opts ra dec

/-- RA and DEC axis records of the space-separated path: the first six
numeric tokens are read with `parseFloat` into the components (note the
missing `format` tag, as in the source). -/
def spaceAxes (l : List Char) : Axis × Axis :=
  let raH := parseFloatCap ((numTokens l).get! 0)
  let raM := parseFloatCap ((numTokens l).get! 1)
  let raS := parseFloatCap ((numTokens l).get! 2)
  let decD := parseFloatCap ((numTokens l).get! 3)
  let decM := parseFloatCap ((numTokens l).get! 4)
  let decS := parseFloatCap ((numTokens l).get! 5)
  (⟨hmsToDecimal raH raM raS, raH, raM, raS, none⟩,
   ⟨dmsToDecimal decD decM decS, decD, decM, decS, none⟩)

/-- The `parseSpaceSeparatedCoordinates` stage: at least six numeric
tokens, the first six read as RA/DEC components (the source's final
`Unable to parse coordinate format` return is unreachable, being guarded
by the same six-token test). -/
def parseSpaceSeparatedCoordinates (opts : Options) (l : List Char) :
    SanitizeResult :=
  if (numTokens l).length < 6 then
    createResult false "" (some "Insufficient coordinate components")
  else
    if opts.validateRanges then
      match validateRA (spaceAxes l).1.decimal with
      | some e => createResult false "" (some e)
      | none =>
        match validateDEC (spaceAxes l).2.decimal with
        | some e => createResult false "" (some e)
        | none => coordSuccess opts (spaceAxes l).1 (spaceAxes l).2
    else coordSuccess opts (spaceAxes l).1 (spaceAxes l).2

/-- The `isValidFormat` recognizer: only the aladin output format has an
exact-match grammar. -/
def isValidFormat (opts : Options) (s : String) : Bool :=
  if opts.outputFormat = "aladin" then aladinTest s.data else false

/-- The main entry point `sanitizeCoordinates`.  `none` models JS
`null`/`undefined` (non-string input); the empty string is falsy and
rejected by the same guard. -/
def sanitizeCoordinates (opts : Options) (input : Option String) : SanitizeResult :=
  match input with
  | none => createResult false "" (some "Input must be a non-empty string")
  | some s =>
    if s = "" then createResult false "" (some "Input must be a non-empty string")
    else
      if containsMaliciousContent (cleanInput s) then
        createResult false "" (some "Input contains potentially malicious content")
      else if isValidFormat opts (cleanInput s) then
        createResult true (cleanInput s) none
          ⟨some "already-valid", some opts.outputFormat, none, none⟩
      else if !looksLikeCoordinates (cleanInput s) then
        createResult true (cleanInput s) none
          ⟨some "object-name", some "passthrough", none, none⟩
      else
        match splitCombined (cleanInput s).data with
        | some (p1, p2) => parseCombinedCoordinates opts (jsTrim p1) (jsTrim p2)
        | none =>
          if (parseSpaceSeparatedCoordinates opts (cleanInput s).data).isValid then
            parseSpaceSeparatedCoordinates opts (cleanInput s).data
          else
            createResult true (cleanInput s) none
              ⟨some "object-name", some "passthrough", none, none⟩

/-! ## Auxiliary specification notions -/

/-- Number of characters after the first `.` of a string (0 when there
is none). -/
def fracLen (s : String) : Nat :=
  match s.data.dropWhile (fun c => c != '.') with
  | [] => 0
  | _ :: rest => rest.length

/-- Adjacency invariant: no comma is immediately followed by
whitespace. -/
def NoCommaWs (l : List Char) : Prop :=
  List.Chain' (fun a b => a = ',' → isJsWs b = false) l

/-- Head of a list is not whitespace (vacuous for the empty list). -/
def HeadNonWs (l : List Char) : Prop := ∀ c ∈ l.head?, isJsWs c = false

/-! ## Lemmas about digit rendering and `toFixed` -/

/-- Digit characters of digits are ASCII digits. -/
theorem digitChar_isDig (d : Nat) (h : d < 10) : isDig (Nat.digitChar d) = true := by
  interval_cases d <;> decide

/-- Every character produced by `natDigitsAux` is an ASCII digit. -/
theorem natDigitsAux_all_isDig :
    ∀ fuel n : Nat, ∀ c ∈ natDigitsAux fuel n, isDig c = true := by
  intro fuel
  induction fuel with
  | zero => intro n c hc; simp [natDigitsAux] at hc
  | succ fuel ih =>
    intro n c hc
    unfold natDigitsAux at hc
    by_cases h : n < 10
    · rw [if_pos h] at hc
      rcases List.mem_singleton.mp hc with hc
      rw [hc]
      exact digitChar_isDig n h
    · rw [if_neg h] at hc
      rcases List.mem_append.mp hc with hc | hc
      · exact ih (n / 10) c hc
      · rcases List.mem_singleton.mp hc with hc
        rw [hc]
        exact digitChar_isDig (n % 10) (Nat.mod_lt n (by omega))

/-- Every character produced by `natDigits` is an ASCII digit. -/
theorem natDigits_all_isDig (n : Nat) : ∀ c ∈ natDigits n, isDig c = true :=
  natDigitsAux_all_isDig (n + 1) n

/-- `natDigits` is never empty. -/
theorem natDigits_ne_nil (n : Nat) : 1 ≤ (natDigits n).length := by
  unfold natDigits natDigitsAux
  by_cases h : n < 10 <;> simp [h]

/-- Digit-count bound for `natDigitsAux` under sufficient fuel. -/
theorem natDigitsAux_length_le :
    ∀ k : Nat, ∀ fuel n : Nat, n < fuel → n < 10 ^ k → 1 ≤ k →
      (natDigitsAux fuel n).length ≤ k := by
  intro k
  induction k with
  | zero => intro fuel n hf hn h1; omega
  | succ k ih =>
    intro fuel n hf hn _
    rcases fuel with _ | fuel
    · omega
    · unfold natDigitsAux
      by_cases h : n < 10
      · rw [if_pos h]
        simp only [List.length_singleton]
        omega
      · rw [if_neg h]
        simp only [List.length_append, List.length_singleton]
        have hk : 1 ≤ k := by
          by_contra hk0
          have hz : k = 0 := by omega
          subst hz
          simp at hn
          omega
        have hdiv : n / 10 < 10 ^ k := by
          rw [Nat.div_lt_iff_lt_mul (by norm_num : (0:Nat) < 10)]
          calc n < 10 ^ (k + 1) := hn
            _ = 10 ^ k * 10 := by ring
        have hfuel : n / 10 < fuel := by
          have hlt : n / 10 < n := Nat.div_lt_self (by omega) (by norm_num)
          omega
        have := ih fuel (n / 10) hfuel hdiv hk
        omega

/-- Digit-count bound: a natural below `10 ^ k` needs at most `k`
digits. -/
theorem natDigits_length_le (k n : Nat) (hn : n < 10 ^ k) (h1 : 1 ≤ k) :
    (natDigits n).length ≤ k :=
  natDigitsAux_length_le k (n + 1) n (by omega) hn h1

/-- A dot is not an ASCII digit. -/
theorem isDig_ne_dot (c : Char) (h : isDig c = true) : (c != '.') = true := by
  revert h
  unfold isDig
  rcases c with ⟨v, hv⟩
  simp only [bne_iff_ne, ne_eq]
  intro hd he
  rw [he] at hd
  simp at hd

/-- Length of `padStart`. -/
theorem padStart_length (s : String) (n : Nat) (c : Char) :
    (padStart s n c).length = max n s.length := by
  have hs : s.length = s.data.length := rfl
  unfold padStart
  split
  next h => omega
  next h =>
    have hmk : (String.mk (List.replicate (n - s.length) c ++ s.data)).length
        = (List.replicate (n - s.length) c ++ s.data).length := rfl
    rw [hmk, List.length_append, List.length_replicate]
    omega

/-- `padStart` does not change a string already long enough. -/
theorem padStart_eq_self (s : String) (n : Nat) (c : Char) (h : n ≤ s.length) :
    padStart s n c = s := by
  unfold padStart
  simp [h]

/-- A list without dots is entirely consumed by the
before-the-dot scan. -/
theorem dropWhile_nodot (l : List Char) (h : ∀ c ∈ l, (c != '.') = true) :
    l.dropWhile (fun c => c != '.') = [] := by
  induction l with
  | nil => rfl
  | cons c cs ih =>
    have hc := h c (by simp)
    simp only [List.dropWhile, hc]
    exact ih (fun a ha => h a (by simp [ha]))

/-- The before-the-dot scan of `l1 ++ '.' :: l2` stops exactly at the
dot when `l1` has no dot. -/
theorem dropWhile_nodot_append (l1 l2 : List Char) (h : ∀ c ∈ l1, (c != '.') = true) :
    (l1 ++ '.' :: l2).dropWhile (fun c => c != '.') = '.' :: l2 := by
  induction l1 with
  | nil => simp [List.dropWhile]
  | cons c cs ih =>
    have hc := h c (by simp)
    simp only [List.cons_append, List.dropWhile, hc]
    exact ih (fun a ha => h a (by simp [ha]))

/-- A dot-free character list has no fractional part. -/
theorem fracLen_nodot (l : List Char) (h : ∀ c ∈ l, (c != '.') = true) :
    fracLen ⟨l⟩ = 0 := by
  unfold fracLen
  rw [show (String.mk l).data = l from rfl, dropWhile_nodot l h]

/-- Fractional length of a list with a unique leading-free dot. -/
theorem fracLen_append_dot (l1 l2 : List Char) (h : ∀ c ∈ l1, (c != '.') = true) :
    fracLen ⟨l1 ++ '.' :: l2⟩ = l2.length := by
  unfold fracLen
  rw [show (String.mk (l1 ++ '.' :: l2)).data = l1 ++ '.' :: l2 from rfl,
    dropWhile_nodot_append l1 l2 h]

/-- Characters of the sign prefix are not dots. -/
theorem sgnChars_nodot (q : ℚ) : ∀ c ∈ sgnChars q, (c != '.') = true := by
  unfold sgnChars
  split <;> simp

/-- Characters of the padded digit string are digits. -/
theorem fixPadded_all_isDig (q : ℚ) (f : Nat) : ∀ c ∈ fixPadded q f, isDig c = true := by
  unfold fixPadded
  intro c hc
  split at hc
  · rcases List.mem_append.mp hc with hc | hc
    · have := List.eq_of_mem_replicate hc
      subst this
      decide
    · exact natDigits_all_isDig _ c hc
  · exact natDigits_all_isDig _ c hc

/-- The padded digit string has more than `f` digits. -/
theorem fixPadded_length_gt (q : ℚ) (f : Nat) : f < (fixPadded q f).length := by
  unfold fixPadded
  split
  next h =>
    have := natDigits_ne_nil (fixScaled q f)
    simp only [List.length_append, List.length_replicate]
    omega
  next h => omega

/-- The fixed-point branch of `toFixed` emits exactly `f` digits after
the decimal point (and no point at all when `f = 0`). -/
theorem toFixedData_fracLen (q : ℚ) (f : Nat) : fracLen ⟨toFixedData q f⟩ = f := by
  by_cases hf : f = 0
  · subst hf
    have h1 : toFixedData q 0 = sgnChars q ++ natDigits (fixScaled q 0) := by
      unfold toFixedData
      rw [if_pos rfl]
    rw [h1]
    apply fracLen_nodot
    intro c hc
    rcases List.mem_append.mp hc with hc | hc
    · exact sgnChars_nodot q c hc
    · exact isDig_ne_dot c (natDigits_all_isDig _ c hc)
  · have h1 : toFixedData q f =
        (sgnChars q ++ (fixPadded q f).take ((fixPadded q f).length - f))
          ++ '.' :: (fixPadded q f).drop ((fixPadded q f).length - f) := by
      unfold toFixedData
      rw [if_neg hf, List.append_assoc]
    rw [h1, fracLen_append_dot]
    · have := fixPadded_length_gt q f
      rw [List.length_drop]
      omega
    · intro c hc
      rcases List.mem_append.mp hc with hc | hc
      · exact sgnChars_nodot q c hc
      · exact isDig_ne_dot c (fixPadded_all_isDig q f c (List.mem_of_mem_take hc))

/-- Below the `10 ^ 21` `ToString` fallback threshold, `toFixed` emits
exactly `f` digits after the decimal point. -/
theorem toFixed_fracLen (q : ℚ) (f : Nat) (hq : |q| < (10 : ℚ) ^ 21) :
    fracLen (toFixed q f) = f := by
  unfold toFixed
  rw [if_neg (not_le.mpr hq)]
  exact toFixedData_fracLen q f

/-- Seconds in `[0, 60)` render under `toFixed 3` in at most six
characters. -/
theorem toFixed3_length_le (q : ℚ) (h0 : 0 ≤ q) (h60 : q < 60) :
    (toFixed q 3).length ≤ 6 := by
  have hfall : ¬ ((10 : ℚ) ^ 21 ≤ |q|) := by
    rw [abs_of_nonneg h0]
    exact not_le.mpr (lt_trans h60 (by norm_num))
  have hn : fixScaled q 3 < 100000 := by
    unfold fixScaled
    have habs : |q| = q := abs_of_nonneg h0
    have hlt : |q| * (10 : ℚ) ^ 3 + 1 / 2 < 100000 := by
      rw [habs]
      nlinarith
    have hfl : ⌊|q| * (10 : ℚ) ^ 3 + 1 / 2⌋ < 100000 :=
      Int.floor_lt.mpr (by exact_mod_cast hlt)
    omega
  have hlen5 : (natDigits (fixScaled q 3)).length ≤ 5 :=
    natDigits_length_le 5 _ (by norm_num at hn ⊢; exact hn) (by norm_num)
  have hL : (fixPadded q 3).length ≤ 5 := by
    unfold fixPadded
    split
    next h =>
      rw [List.length_append, List.length_replicate]
      have := natDigits_ne_nil (fixScaled q 3)
      omega
    next h => omega
  have hgt := fixPadded_length_gt q 3
  have hq : ¬ (q < 0) := not_lt.mpr h0
  unfold toFixed
  rw [if_neg hfall]
  show (toFixedData q 3).length ≤ 6
  unfold toFixedData
  rw [if_neg (by norm_num : ¬ ((3:Nat) = 0))]
  unfold sgnChars
  rw [if_neg hq]
  simp only [List.nil_append, List.length_append, List.length_cons, List.length_take,
    List.length_drop]
  omega

/-- Seconds fields of the aladin format have width exactly six for
seconds in `[0, 60)`. -/
theorem aladin_seconds_width (q : ℚ) (h0 : 0 ≤ q) (h60 : q < 60) :
    (padStart (toFixed q 3) 6 '0').length = 6 := by
  rw [padStart_length]
  have := toFixed3_length_le q h0 h60
  omega

section RatKernelEval

set_option allowUnsafeReducibility true
attribute [local semireducible] Rat.mul Rat.inv Rat.add Rat.sub

/-- Negative single-digit integers render as a sign and one digit. -/
theorem jsNumToString_neg_digit (d : Nat) (h1 : 1 ≤ d) (h9 : d ≤ 9) :
    jsNumToString (-(d : ℚ)) = ⟨['-', Nat.digitChar d]⟩ := by
  interval_cases d <;> decide

end RatKernelEval

/-! ## The normalizer never leaves whitespace after a comma

The separator-collapsing replace `\s*[,;]\s*` → `','` absorbs all
whitespace adjacent to a comma and no later normalizer stage
reintroduces it.  Consequently the `aladinFormat` pattern, whose comma
is followed by a mandatory `\s`, can never match a normalized string:
the already-valid short-circuit of `sanitizeCoordinates` is dead code. -/

/-- One-step equation of the separator scan on a cons cell. -/
theorem sepScan_cons (sep : Char) (isSep : Char → Bool) (pend : List Char) (cnt : Nat)
    (c : Char) (cs : List Char) :
    sepScan sep isSep pend cnt (c :: cs) =
      if isJsWs c then sepScan sep isSep (c :: pend) cnt cs
      else if isSep c then sepScan sep isSep pend (cnt + 1) cs
      else sepFlush sep pend cnt ++ c :: sepScan sep isSep [] 0 cs := rfl

/-- One-step equation of the whitespace scan on a cons cell. -/
theorem wsScan_cons (b : Bool) (c : Char) (cs : List Char) :
    wsScan b (c :: cs) =
      if isJsWs c then (if b then wsScan true cs else ' ' :: wsScan true cs)
      else c :: wsScan false cs := rfl

/-- Lists without commas satisfy the invariant. -/
theorem noCommaWs_of_no_comma (l : List Char) (h : ∀ c ∈ l, c ≠ ',') :
    NoCommaWs l := by
  induction l with
  | nil => exact List.chain'_nil
  | cons c cs ih =>
    rw [NoCommaWs, List.chain'_cons']
    refine ⟨fun y _ hc => absurd hc (h c (by simp)), ?_⟩
    exact ih (fun a ha => h a (by simp [ha]))

/-- All-whitespace lists satisfy the invariant. -/
theorem noCommaWs_allWs (l : List Char) (h : ∀ c ∈ l, isJsWs c = true) :
    NoCommaWs l := by
  apply noCommaWs_of_no_comma
  intro c hc heq
  have hw := h c hc
  rw [heq] at hw
  exact absurd hw (by decide)

/-- Repeated non-whitespace characters satisfy the invariant. -/
theorem noCommaWs_replicate (n : Nat) (c : Char) (h : isJsWs c = false) :
    NoCommaWs (List.replicate n c) :=
  List.chain'_replicate_of_rel n (fun _ => h)

/-- Flush output of the separator scan satisfies the invariant. -/
theorem sepFlush_noCommaWs (sep : Char) (pend : List Char) (cnt : Nat)
    (hsep : isJsWs sep = false) (hp : ∀ c ∈ pend, isJsWs c = true) :
    NoCommaWs (sepFlush sep pend cnt) := by
  unfold sepFlush
  split
  · exact noCommaWs_allWs _ (fun c hc => hp c (List.mem_reverse.mp hc))
  · exact noCommaWs_replicate cnt sep hsep

/-- Comma pass: the output never has whitespace after a comma. -/
theorem sepScanComma_noCommaWs :
    ∀ (cs pend : List Char) (cnt : Nat), (∀ c ∈ pend, isJsWs c = true) →
      NoCommaWs (sepScan ',' (fun c => c = ',' || c = ';') pend cnt cs) := by
  intro cs
  induction cs with
  | nil =>
    intro pend cnt hp
    exact sepFlush_noCommaWs ',' pend cnt (by decide) hp
  | cons c cs ih =>
    intro pend cnt hp
    rw [sepScan_cons]
    by_cases hw : isJsWs c
    · rw [if_pos hw]
      exact ih (c :: pend) cnt (by
        intro a ha
        rcases List.mem_cons.mp ha with ha | ha
        · rw [ha]; exact hw
        · exact hp a ha)
    · rw [if_neg hw]
      by_cases hs : (c = ',' || c = ';') = true
      · rw [if_pos hs]
        exact ih pend (cnt + 1) hp
      · rw [if_neg hs]
        rw [NoCommaWs, List.chain'_append]
        refine ⟨sepFlush_noCommaWs ',' pend cnt (by decide) hp, ?_, ?_⟩
        · rw [List.chain'_cons']
          refine ⟨?_, ih [] 0 (by simp)⟩
          intro y _ hceq
          rw [hceq] at hs
          simp at hs
        · intro x _ y hy
          rw [List.head?_cons, Option.mem_some_iff] at hy
          intro _
          rw [← hy]
          exact eq_false_of_ne_true hw

/-- Separator scans with pending separators start with the separator
character. -/
theorem sepScan_head_sep (sep : Char) (isSep : Char → Bool) (hsep : isJsWs sep = false) :
    ∀ (cs pend : List Char) (cnt : Nat), 1 ≤ cnt →
      HeadNonWs (sepScan sep isSep pend cnt cs) := by
  intro cs
  induction cs with
  | nil =>
    intro pend cnt hcnt
    show HeadNonWs (sepFlush sep pend cnt)
    unfold sepFlush
    rw [if_neg (by omega)]
    intro a ha
    rcases cnt with _ | n
    · omega
    · rw [List.replicate_succ, List.head?_cons, Option.mem_some_iff] at ha
      rw [← ha]
      exact hsep
  | cons c cs ih =>
    intro pend cnt hcnt
    rw [sepScan_cons]
    by_cases hw : isJsWs c
    · rw [if_pos hw]
      exact ih (c :: pend) cnt hcnt
    · rw [if_neg hw]
      by_cases hs : isSep c = true
      · rw [if_pos hs]
        exact ih pend (cnt + 1) (by omega)
      · rw [if_neg hs]
        have hfl : sepFlush sep pend cnt = List.replicate cnt sep := by
          unfold sepFlush
          rw [if_neg (by omega)]
        rw [hfl]
        intro a ha
        rcases cnt with _ | n
        · omega
        · rw [List.replicate_succ, List.cons_append, List.head?_cons,
            Option.mem_some_iff] at ha
          rw [← ha]
          exact hsep

/-- Separator scans preserve a non-whitespace head. -/
theorem sepScan_headNonWs (sep : Char) (isSep : Char → Bool) (hsep : isJsWs sep = false)
    (cs : List Char) (h : HeadNonWs cs) :
    HeadNonWs (sepScan sep isSep [] 0 cs) := by
  rcases cs with _ | ⟨c, cs⟩
  · intro a ha
    simp [sepScan, sepFlush] at ha
  · have hc : isJsWs c = false := h c (by rw [List.head?_cons]; rfl)
    rw [sepScan_cons, hc, if_neg (by simp)]
    by_cases hs : isSep c = true
    · rw [if_pos hs]
      exact sepScan_head_sep sep isSep hsep cs [] 1 (by omega)
    · rw [if_neg hs]
      intro a ha
      show isJsWs a = false
      have hfl : sepFlush sep [] 0 = [] := rfl
      rw [hfl, List.nil_append, List.head?_cons, Option.mem_some_iff] at ha
      rw [← ha]
      exact hc

/-- Colon pass: the invariant is preserved. -/
theorem sepScanColon_noCommaWs :
    ∀ (cs pend : List Char) (cnt : Nat), (∀ c ∈ pend, isJsWs c = true) →
      NoCommaWs cs → NoCommaWs (sepScan ':' (fun c => c = ':') pend cnt cs) := by
  intro cs
  induction cs with
  | nil =>
    intro pend cnt hp _
    exact sepFlush_noCommaWs ':' pend cnt (by decide) hp
  | cons c cs ih =>
    intro pend cnt hp hcs
    have hcs' : NoCommaWs cs := List.Chain'.tail hcs
    rw [sepScan_cons]
    by_cases hw : isJsWs c
    · rw [if_pos hw]
      exact ih (c :: pend) cnt (by
        intro a ha
        rcases List.mem_cons.mp ha with ha | ha
        · rw [ha]; exact hw
        · exact hp a ha) hcs'
    · rw [if_neg hw]
      by_cases hs : (decide (c = ':')) = true
      · rw [if_pos hs]
        exact ih pend (cnt + 1) hp hcs'
      · rw [if_neg hs]
        rw [NoCommaWs, List.chain'_append]
        refine ⟨sepFlush_noCommaWs ':' pend cnt (by decide) hp, ?_, ?_⟩
        · rw [List.chain'_cons']
          refine ⟨?_, ih [] 0 (by simp) hcs'⟩
          intro y hy hceq
          -- c is a comma: the input invariant forbids whitespace after it
          have hhead : HeadNonWs cs := by
            intro a ha
            rw [NoCommaWs, List.chain'_cons'] at hcs
            exact hcs.1 a ha hceq
          have := sepScan_headNonWs ':' (fun c => c = ':') (by decide) cs hhead
          exact this y hy
        · intro x _ y hy
          rw [List.head?_cons, Option.mem_some_iff] at hy
          intro _
          rw [← hy]
          exact eq_false_of_ne_true hw

/-- Whitespace collapsing preserves a non-whitespace head. -/
theorem wsScan_headNonWs (cs : List Char) (h : HeadNonWs cs) :
    HeadNonWs (wsScan false cs) := by
  rcases cs with _ | ⟨c, cs⟩
  · intro a ha
    simp [wsScan] at ha
  · have hc : isJsWs c = false := h c (by rw [List.head?_cons]; rfl)
    rw [wsScan_cons, hc, if_neg (by simp)]
    intro a ha
    rw [List.head?_cons, Option.mem_some_iff] at ha
    rw [← ha]
    exact hc

/-- Whitespace collapsing preserves the invariant. -/
theorem wsScan_noCommaWs : ∀ (cs : List Char) (b : Bool),
    NoCommaWs cs → NoCommaWs (wsScan b cs) := by
  intro cs
  induction cs with
  | nil => intro b _; exact List.chain'_nil
  | cons c cs ih =>
    intro b hcs
    have hcs' : NoCommaWs cs := List.Chain'.tail hcs
    rw [wsScan_cons]
    by_cases hw : isJsWs c
    · rw [if_pos hw]
      rcases b with _ | _
      · rw [if_neg (by simp)]
        rw [NoCommaWs, List.chain'_cons']
        refine ⟨?_, ih true hcs'⟩
        intro y _ hceq
        exact absurd hceq (by decide)
      · rw [if_pos rfl]
        exact ih true hcs'
    · rw [if_neg hw]
      rw [NoCommaWs, List.chain'_cons']
      refine ⟨?_, ih false hcs'⟩
      intro y hy hceq
      have hhead : HeadNonWs cs := by
        intro a ha
        rw [NoCommaWs, List.chain'_cons'] at hcs
        exact hcs.1 a ha hceq
      exact wsScan_headNonWs cs hhead y hy

/-- Trimming preserves the invariant. -/
theorem jsTrim_noCommaWs (l : List Char) (h : NoCommaWs l) : NoCommaWs (jsTrim l) := by
  unfold jsTrim trimL
  have h1 : NoCommaWs (l.dropWhile isJsWs) := h.suffix (List.dropWhile_suffix _)
  apply h1.prefix
  rw [← List.reverse_suffix, List.reverse_reverse]
  exact List.dropWhile_suffix _

/-- Normalized input never has whitespace after a comma. -/
theorem cleanList_noCommaWs (l : List Char) : NoCommaWs (cleanList l) := by
  unfold cleanList
  apply jsTrim_noCommaWs
  apply wsScan_noCommaWs
  apply sepScanColon_noCommaWs
  · intro c hc
    simp at hc
  · apply sepScanComma_noCommaWs
    intro c hc
    simp at hc

/-- The rest returned by the optional-fraction eater is a suffix of its
input. -/
theorem eatFrac_suffix (rest r : List Char) (h : eatFrac rest = some r) :
    r <:+ rest := by
  unfold eatFrac at h
  split at h
  next rest2 =>
    split at h
    · exact absurd h (by simp)
    · rw [Option.some_inj] at h
      rw [← h]
      exact (List.dropWhile_suffix _).trans ⟨['.'], rfl⟩
  next =>
    rw [Option.some_inj] at h
    rw [← h]

/-- The rest returned by the aladin-triple eater is a suffix of its
input. -/
theorem eatAladinTriple_suffix (l r : List Char) (h : eatAladinTriple l = some r) :
    r <:+ l := by
  unfold eatAladinTriple at h
  split at h
  next a b w1 c d w2 e f rest =>
    split at h
    · exact (eatFrac_suffix rest r h).trans ⟨[a, b, w1, c, d, w2, e, f], rfl⟩
    · exact absurd h (by simp)
  next => exact absurd h (by simp)

/-- The aladin pattern cannot match a list satisfying the invariant: its
comma must be followed by whitespace. -/
theorem aladinTest_false_of_noCommaWs (l : List Char) (h : NoCommaWs l) :
    aladinTest l = false := by
  rcases heq : eatAladinTriple l with _ | r1
  · unfold aladinTest
    rw [heq]
  · have hs : r1 <:+ l := eatAladinTriple_suffix l r1 heq
    unfold aladinTest
    rw [heq]
    rcases r1 with _ | ⟨c, r1'⟩
    · rfl
    · rcases r1' with _ | ⟨w, r2⟩
      · rfl
      · show (if c = ',' && isJsWs w then
            match eatAladinTriple (dropSign r2) with
            | some [] => true
            | _ => false
          else false) = false
        by_cases hcw : (c = ',' && isJsWs w) = true
        · rw [Bool.and_eq_true] at hcw
          have hc : c = ',' := by
            have := hcw.1
            simpa using this
          have hchain : NoCommaWs (c :: w :: r2) := h.suffix hs
          rw [NoCommaWs, List.chain'_cons'] at hchain
          have hw : isJsWs w = false :=
            hchain.1 w (by rw [List.head?_cons]; rfl) hc
          rw [hw] at hcw
          exact absurd hcw.2 (by simp)
        · rw [if_neg hcw]

/-- Because normalization destroys the mandatory space after the comma,
the already-valid recognizer rejects every normalized input. -/
theorem isValidFormat_cleanInput_false (opts : Options) (s : String) :
    isValidFormat opts (cleanInput s) = false := by
  unfold isValidFormat
  split
  · exact aladinTest_false_of_noCommaWs _ (cleanList_noCommaWs s.data)
  · rfl

/-! ## Result-shape analysis of the pipeline -/

/-- Shape of a `parseCombinedCoordinates` result: either a bare failure
or a fully populated coordinates success. -/
theorem parseCombined_cases (opts : Options) (p1 p2 : List Char) :
    (parseCombinedCoordinates opts p1 p2).isValid = false ∧
      (parseCombinedCoordinates opts p1 p2).coordinates = "" ∧
      (parseCombinedCoordinates opts p1 p2).error ≠ none ∧
      (parseCombinedCoordinates opts p1 p2).metadata = {} ∨
    (∃ ra dec, parseCombinedCoordinates opts p1 p2 = coordSuccess opts ra dec) := by
  unfold parseCombinedCoordinates
  split
  · left
    simp [createResult]
  · left
    simp [createResult]
  · split
    · split
      · left
        simp [createResult]
      · split
        · left
          simp [createResult]
        · right
          exact ⟨_, _, rfl⟩
    · right
      exact ⟨_, _, rfl⟩

/-- Shape of a `parseSpaceSeparatedCoordinates` result. -/
theorem parseSpace_cases (opts : Options) (l : List Char) :
    (parseSpaceSeparatedCoordinates opts l).isValid = false ∧
      (parseSpaceSeparatedCoordinates opts l).coordinates = "" ∧
      (parseSpaceSeparatedCoordinates opts l).error ≠ none ∧
      (parseSpaceSeparatedCoordinates opts l).metadata = {} ∨
    (∃ ra dec, parseSpaceSeparatedCoordinates opts l = coordSuccess opts ra dec) := by
  unfold parseSpaceSeparatedCoordinates
  split
  · left
    simp [createResult]
  · split
    · split
      · left
        simp [createResult]
      · split
        · left
          simp [createResult]
        · right
          exact ⟨_, _, rfl⟩
    · right
      exact ⟨_, _, rfl⟩

/-- Shape of every `sanitizeCoordinates` result: a bare failure, an
already-valid or object-name passthrough, or a coordinates success
carrying the configured output format and both axis records. -/
theorem sanitize_cases (opts : Options) (input : Option String) :
    (sanitizeCoordinates opts input).isValid = false ∧
      (sanitizeCoordinates opts input).coordinates = "" ∧
      (sanitizeCoordinates opts input).error ≠ none ∧
      (sanitizeCoordinates opts input).metadata = {} ∨
    (sanitizeCoordinates opts input).isValid = true ∧
      (sanitizeCoordinates opts input).error = none ∧
      ((sanitizeCoordinates opts input).metadata.inputFormat = some "already-valid" ∧
        (sanitizeCoordinates opts input).metadata.outputFormat = some opts.outputFormat ∨
       (sanitizeCoordinates opts input).metadata.inputFormat = some "object-name" ∧
        (sanitizeCoordinates opts input).metadata.outputFormat = some "passthrough" ∨
       (sanitizeCoordinates opts input).metadata.inputFormat = some "coordinates" ∧
        (sanitizeCoordinates opts input).metadata.outputFormat = some opts.outputFormat ∧
        ∃ ra dec, (sanitizeCoordinates opts input).metadata.ra = some ra ∧
          (sanitizeCoordinates opts input).metadata.dec = some dec ∧
          (sanitizeCoordinates opts input).coordinates = formatOutput opts ra dec) := by
  unfold sanitizeCoordinates
  split
  · left
    simp [createResult]
  next s =>
    split
    · left
      simp [createResult]
    · split
      · left
        simp [createResult]
      · split
        · right
          simp [createResult]
        · split
          · right
            simp [createResult]
          · split
            next p1 p2 _ =>
              rcases parseCombined_cases opts (jsTrim p1) (jsTrim p2) with h | ⟨ra, dec, h⟩
              · left
                exact h
              · right
                rw [h]
                simp [coordSuccess, createResult]
            · split
              next hv =>
                rcases parseSpace_cases opts (cleanInput s).data with h | ⟨ra, dec, h⟩
                · rw [h.1] at hv
                  exact absurd hv (by simp)
                · right
                  rw [h]
                  simp [coordSuccess, createResult]
              · right
                simp [createResult]

/-! ## Claim theorems -/

section ClaimEval

set_option allowUnsafeReducibility true
attribute [local semireducible] Rat.mul Rat.inv Rat.add Rat.sub

/-- C1: the spec (and the repository's own test suite) requires
`sanitize("16 37 13, -00 58 20")` to yield a strictly negative
declination decimal, the sign of `-00°` being taken from the explicit
leading minus.  The code instead parses the degree token with
`parseInt("-00")`, whose `-0` compares as not less than zero in
`dmsToDecimal`, so the declination converts to the positive value
`35/36` and the pair even renders with a `+` sign. -/
theorem C1_neg_zero_declination_sign_lost :
    (sanitizeCoordinates {} (some "16 37 13, -00 58 20")).isValid = true ∧
    (sanitizeCoordinates {} (some "16 37 13, -00 58 20")).metadata.dec
      = some ⟨35/36, 0, 58, 20, some "dms"⟩ ∧
    ¬ ((35 : ℚ)/36 < 0) ∧
    (sanitizeCoordinates {} (some "16 37 13, -00 58 20")).coordinates
      = "16 37 13.000, +00 58 20.000" := by
  refine ⟨by decide, by decide, by decide, by decide⟩

/-- C2: re-sanitizing the aladin rendering of a coordinate pair is
claimed to short-circuit with `inputFormat = "already-valid"`.  It never
does: `cleanInput` collapses `", "` to `","` while the `aladinFormat`
recognizer demands a whitespace after the comma (see
`isValidFormat_cleanInput_false`), so the rendered pair is re-parsed and
classified `"coordinates"` (the string itself happens to round-trip). -/
theorem C2_already_valid_never_fires :
    isValidFormat {} (cleanInput "12 00 00.000, +12 00 00.000") = false ∧
    (sanitizeCoordinates {} (some "12 00 00.000, +12 00 00.000")).metadata.inputFormat
      = some "coordinates" ∧
    (sanitizeCoordinates {} (some "12 00 00.000, +12 00 00.000")).coordinates
      = "12 00 00.000, +12 00 00.000" := by
  refine ⟨by decide, by decide, by decide⟩

/-- C3 counterexample: the input `"Foo   Bim   Qux"` matches no catalog
shape and no coordinate indicator, yet the returned coordinates string
is the normalized `"Foo Bim Qux"` (whitespace collapsed), not the
original trimmed input. -/
theorem C3_passthrough_counterexample :
    looksLikeCoordinates "Foo   Bim   Qux" = false ∧
    catalogAny ((cleanInput "Foo   Bim   Qux").data.map upperAscii) = false ∧
    looksLikeCoordinates (cleanInput "Foo   Bim   Qux") = false ∧
    (sanitizeCoordinates {} (some "Foo   Bim   Qux")).isValid = true ∧
    (sanitizeCoordinates {} (some "Foo   Bim   Qux")).metadata.inputFormat
      = some "object-name" ∧
    (sanitizeCoordinates {} (some "Foo   Bim   Qux")).coordinates
      ≠ "Foo   Bim   Qux" := by
  refine ⟨by decide, by decide, by decide, by decide, by decide, by decide⟩

/-- C3 (amended): an input that survives the gatekeeper and matches no
catalog shape and no coordinate indicator passes through as an object
name whose coordinates string is the NORMALIZED input (unicode folded,
whitespace collapsed, trimmed) — equal to the original trimmed input
only when normalization does not alter it. -/
theorem C3_object_name_passthrough_normalized (opts : Options) (s : String)
    (hne : s ≠ "")
    (hmal : containsMaliciousContent (cleanInput s) = false)
    (hcoord : looksLikeCoordinates (cleanInput s) = false) :
    sanitizeCoordinates opts (some s) =
      createResult true (cleanInput s) none
        ⟨some "object-name", some "passthrough", none, none⟩ := by
  show (if s = "" then createResult false "" (some "Input must be a non-empty string")
    else if containsMaliciousContent (cleanInput s) then
      createResult false "" (some "Input contains potentially malicious content")
    else if isValidFormat opts (cleanInput s) then
      createResult true (cleanInput s) none
        ⟨some "already-valid", some opts.outputFormat, none, none⟩
    else if !looksLikeCoordinates (cleanInput s) then
      createResult true (cleanInput s) none
        ⟨some "object-name", some "passthrough", none, none⟩
    else
      match splitCombined (cleanInput s).data with
      | some (p1, p2) => parseCombinedCoordinates opts (jsTrim p1) (jsTrim p2)
      | none =>
        if (parseSpaceSeparatedCoordinates opts (cleanInput s).data).isValid then
          parseSpaceSeparatedCoordinates opts (cleanInput s).data
        else
          createResult true (cleanInput s) none
            ⟨some "object-name", some "passthrough", none, none⟩) =
    createResult true (cleanInput s) none
      ⟨some "object-name", some "passthrough", none, none⟩
  rw [if_neg hne, if_neg (by rw [hmal]; simp),
    if_neg (by rw [isValidFormat_cleanInput_false opts s]; simp),
    if_pos (by rw [hcoord]; rfl)]

/-- C3 witness: `"Polaris"` passes through unchanged (here normalization
is the identity). -/
theorem C3_object_name_passthrough_normalized_witness :
    sanitizeCoordinates {} (some "Polaris") =
      createResult true "Polaris" none
        ⟨some "object-name", some "passthrough", none, none⟩ :=
  C3_object_name_passthrough_normalized {} "Polaris" (by decide) (by decide) (by decide)

/-- C4 counterexample: a single-digit negative declination such as `-5°`
renders its degree field as `"-5"`, not `"-05"`: the code pads the
SIGNED rendering to width 2 (the sign character counts), not the
unsigned magnitude. -/
theorem C4_degree_pad_counterexample :
    (sanitizeCoordinates {} (some "12h 00m 00s, -05d 30m 00s")).isValid = true ∧
    (sanitizeCoordinates {} (some "12h 00m 00s, -05d 30m 00s")).coordinates
      = "12 00 00.000, -5 30 00.000" ∧
    hasInfix "-05".data ("12 00 00.000, -5 30 00.000").data = false := by
  refine ⟨by decide, by decide, by decide⟩

/-- C4 (amended): in the aladin renderer the declination degree field is
the signed degree integer rendered and then zero-padded to width 2
counting the sign character, so `-5°` renders as `"-5"` (already width
2) with no zero inserted; `'+'` is prepended only for non-negative
declination decimals; each seconds field is the fixed-3-decimal string
padded to total width 6 (width exactly 6 for seconds in `[0, 60)`). -/
theorem C4_aladin_dec_rendering (ra dec : Axis) (d : Nat)
    (hd : dec.big = -(d : ℚ)) (h1 : 1 ≤ d) (h9 : d ≤ 9)
    (hneg : dec.decimal < 0) (hs0 : 0 ≤ dec.seconds) (hs60 : dec.seconds < 60) :
    formatAladin ra dec =
      aladinRA ra ++ ", " ++
        ("-" ++ String.mk [Nat.digitChar d] ++ " " ++
         padStart (jsNumToString |dec.minutes|) 2 '0' ++ " " ++
         padStart (toFixed |dec.seconds| 3) 6 '0') ∧
    (padStart (toFixed |dec.seconds| 3) 6 '0').length = 6 ∧
    Nat.digitChar d ≠ '0' := by
  refine ⟨?_, ?_, ?_⟩
  · unfold formatAladin aladinDec
    rw [if_neg (not_le.mpr hneg), hd, jsNumToString_neg_digit d h1 h9,
      padStart_eq_self (String.mk ['-', Nat.digitChar d]) 2 '0' (Nat.le_refl 2)]
    rfl
  · exact aladin_seconds_width |dec.seconds| (abs_nonneg _)
      (by rw [abs_of_nonneg hs0]; exact hs60)
  · interval_cases d <;> decide

/-- C4 witness: a concrete `-5° 30' 00"` declination. -/
theorem C4_aladin_dec_rendering_witness :
    formatAladin ⟨12, 12, 0, 0, some "hms"⟩ ⟨-(11/2 : ℚ), -5, 30, 0, some "dms"⟩ =
      aladinRA ⟨12, 12, 0, 0, some "hms"⟩ ++ ", " ++
        ("-" ++ String.mk [Nat.digitChar 5] ++ " " ++
         padStart (jsNumToString |(30 : ℚ)|) 2 '0' ++ " " ++
         padStart (toFixed |(0 : ℚ)| 3) 6 '0') ∧
    (padStart (toFixed |(0 : ℚ)| 3) 6 '0').length = 6 ∧
    Nat.digitChar 5 ≠ '0' :=
  C4_aladin_dec_rendering ⟨12, 12, 0, 0, some "hms"⟩ ⟨-(11/2 : ℚ), -5, 30, 0, some "dms"⟩
    5 (by norm_num) (by norm_num) (by norm_num) (by norm_num) (by norm_num) (by norm_num)

/-- C5: the DEC round-trip is claimed to hold on all of `[-90, 90]`
including `(-1, 0)`; but `decimalToDMS (-1/2)` yields a zero degree
component (JS `0 * -1 = -0`), whose sign `dmsToDecimal` cannot recover,
so the round trip returns `+1/2` instead of `-1/2`. -/
theorem C5_dec_roundtrip_sign_lost :
    decimalToDMS (-(1/2) : ℚ) = (0, 30, 0) ∧
    dmsToDecimal (decimalToDMS (-(1/2) : ℚ)).1 (decimalToDMS (-(1/2) : ℚ)).2.1
      (decimalToDMS (-(1/2) : ℚ)).2.2 = (1/2 : ℚ) ∧
    ((1 : ℚ)/2) ≠ -(1/2) := by
  refine ⟨by decide, by decide, by decide⟩

/-- C6: with range validation on (default), `25h` RA fails with an
error containing `"RA out of range"`; with validation off the same
input sanitizes successfully, the out-of-range value passing through to
formatting. -/
theorem C6_ra_range_toggle :
    (sanitizeCoordinates {} (some "25h 00m 00s, +00° 00' 00\"")).isValid = false ∧
    (sanitizeCoordinates {} (some "25h 00m 00s, +00° 00' 00\"")).error
      = some "RA out of range: 25 (must be 0-24 hours)" ∧
    hasInfix "RA out of range".data
      "RA out of range: 25 (must be 0-24 hours)".data = true ∧
    (sanitizeCoordinates ⟨"aladin", 6, false, false⟩
      (some "25h 00m 00s, +00° 00' 00\"")).isValid = true := by
  refine ⟨by decide, by decide, by decide, by decide⟩

/-- C7 counterexample: `"M31\t"` contains a C0 control character (TAB),
yet sanitization succeeds: the gatekeeper runs on the NORMALIZED input,
and normalization collapses whitespace-class control characters away
before the denylist is consulted. -/
theorem C7_control_char_counterexample :
    ("M31\t".data.any (fun c => c.toNat ≤ 0x1F)) = true ∧
    (sanitizeCoordinates {} (some "M31\t")).isValid = true ∧
    (sanitizeCoordinates {} (some "M31\t")).error = none := by
  refine ⟨by decide, by decide, by decide⟩

/-- C7 (amended): the denylist is evaluated on the normalized input; for
every non-empty input whose NORMALIZED form contains a markup tag, a
`javascript:` occurrence, an `on<word>=` token, or a C0/DEL character,
sanitization returns exactly the malicious-content failure and performs
no classification, parsing, or formatting.  C0 characters that are
whitespace (TAB, LF, VT, FF, CR) are collapsed by normalization and do
not trigger rejection. -/
theorem C7_gatekeeper_rejects_normalized_malicious (opts : Options) (s : String)
    (hne : s ≠ "") (hm : containsMaliciousContent (cleanInput s) = true) :
    sanitizeCoordinates opts (some s) =
      createResult false "" (some "Input contains potentially malicious content") := by
  show (if s = "" then createResult false "" (some "Input must be a non-empty string")
    else if containsMaliciousContent (cleanInput s) then
      createResult false "" (some "Input contains potentially malicious content")
    else if isValidFormat opts (cleanInput s) then
      createResult true (cleanInput s) none
        ⟨some "already-valid", some opts.outputFormat, none, none⟩
    else if !looksLikeCoordinates (cleanInput s) then
      createResult true (cleanInput s) none
        ⟨some "object-name", some "passthrough", none, none⟩
    else
      match splitCombined (cleanInput s).data with
      | some (p1, p2) => parseCombinedCoordinates opts (jsTrim p1) (jsTrim p2)
      | none =>
        if (parseSpaceSeparatedCoordinates opts (cleanInput s).data).isValid then
          parseSpaceSeparatedCoordinates opts (cleanInput s).data
        else
          createResult true (cleanInput s) none
            ⟨some "object-name", some "passthrough", none, none⟩) =
    createResult false "" (some "Input contains potentially malicious content")
  rw [if_neg hne, if_pos hm]

/-- C7 witness: a script tag is rejected with the malicious-content
error. -/
theorem C7_gatekeeper_rejects_normalized_malicious_witness :
    sanitizeCoordinates {} (some "<script>alert(1)</script>") =
      createResult false "" (some "Input contains potentially malicious content") :=
  C7_gatekeeper_rejects_normalized_malicious {} "<script>alert(1)</script>"
    (by decide) (by decide)

/-- C8: for every configuration and input, an invalid result carries an
empty coordinates string and a non-null error; failures are values of
the result type, never exceptions (the embedding is total). -/
theorem C8_failure_invariant (opts : Options) (input : Option String)
    (h : (sanitizeCoordinates opts input).isValid = false) :
    (sanitizeCoordinates opts input).coordinates = "" ∧
    (sanitizeCoordinates opts input).error ≠ none := by
  rcases sanitize_cases opts input with ⟨_, h2, h3, _⟩ | ⟨h1, _, _⟩
  · exact ⟨h2, h3⟩
  · rw [h1] at h
    exact absurd h (by simp)

/-- C8 witness: the null input fails with empty coordinates and an
error. -/
theorem C8_failure_invariant_witness :
    (sanitizeCoordinates {} none).isValid = false ∧
    ((sanitizeCoordinates {} none).coordinates = "" ∧
     (sanitizeCoordinates {} none).error ≠ none) :=
  ⟨by decide, C8_failure_invariant {} none (by decide)⟩

/-- C9 counterexample: with `validateRanges` off, a huge right
ascension makes `toFixed` fall back to the `ToString` rendering
(`|RA decimal| ≥ 10 ^ 21`), so the sanitization succeeds as a
coordinate pair whose RA number does NOT have exactly `precision = 6`
digits after the decimal point (JavaScript prints the exponential
`"9.999999999999999e+22"` for this input; the exact-rational model
prints the plain expansion — the claimed fixed six-digit shape fails in
both). -/
theorem C9_decimal_precision_counterexample :
    (sanitizeCoordinates ⟨"decimal", 6, false, false⟩
      (some "99999999999999999999999 1 1 -1 1 1")).isValid = true ∧
    (sanitizeCoordinates ⟨"decimal", 6, false, false⟩
      (some "99999999999999999999999 1 1 -1 1 1")).metadata.inputFormat
      = some "coordinates" ∧
    (sanitizeCoordinates ⟨"decimal", 6, false, false⟩
      (some "99999999999999999999999 1 1 -1 1 1")).coordinates
      = "99999999999999999999999.01694444444444444" ++ ", " ++ "-1.016944" ∧
    ((sanitizeCoordinates ⟨"decimal", 6, false, false⟩
      (some "99999999999999999999999 1 1 -1 1 1")).metadata.ra.map
        (fun a => decide ((10 : ℚ) ^ 21 ≤ |a.decimal|))) = some true ∧
    fracLen "99999999999999999999999.01694444444444444" ≠ 6 := by
  refine ⟨by decide, by decide, by decide, by decide, by decide⟩

/-- C9 (amended): with decimal output, every successfully sanitized
coordinate pair BOTH of whose axis decimal values are below `10 ^ 21`
in magnitude (always the case when range validation is on) renders as
two numbers joined by `", "`, each with exactly `precision` digits
after the decimal point; at `10 ^ 21` and above, `toFixed` falls back
to the plain `ToString` rendering and the fixed-digit shape is lost. -/
theorem C9_decimal_precision_exact (opts : Options) (input : Option String)
    (hfmt : opts.outputFormat = "decimal")
    (hval : (sanitizeCoordinates opts input).isValid = true)
    (hin : (sanitizeCoordinates opts input).metadata.inputFormat = some "coordinates")
    (hra : ∀ ra, (sanitizeCoordinates opts input).metadata.ra = some ra →
      |ra.decimal| < (10 : ℚ) ^ 21)
    (hdec : ∀ dec, (sanitizeCoordinates opts input).metadata.dec = some dec →
      |dec.decimal| < (10 : ℚ) ^ 21) :
    ∃ a b : String, (sanitizeCoordinates opts input).coordinates = a ++ ", " ++ b ∧
      fracLen a = opts.precision ∧ fracLen b = opts.precision := by
  rcases sanitize_cases opts input with ⟨h1, _, _, _⟩ | ⟨_, _, hc⟩
  · rw [hval] at h1
    exact absurd h1 (by simp)
  · rcases hc with ⟨h1, _⟩ | ⟨h1, _⟩ | ⟨_, _, ra, dec, hraEq, hdecEq, hco⟩
    · rw [h1] at hin
      exact absurd hin (by decide)
    · rw [h1] at hin
      exact absurd hin (by decide)
    · refine ⟨toFixed ra.decimal opts.precision, toFixed dec.decimal opts.precision,
        ?_, toFixed_fracLen _ _ (hra ra hraEq), toFixed_fracLen _ _ (hdec dec hdecEq)⟩
      rw [hco]
      unfold formatOutput
      rw [if_neg (by rw [hfmt]; decide), if_pos (by rw [hfmt])]
      rfl

/-- C9 witness: precision 2 yields `"12.50, -45.75"`, both axes far
below the fallback threshold. -/
theorem C9_decimal_precision_exact_witness :
    ∃ a b : String,
      (sanitizeCoordinates ⟨"decimal", 2, true, false⟩ (some "12.5, -45.75")).coordinates
        = a ++ ", " ++ b ∧ fracLen a = 2 ∧ fracLen b = 2 :=
  C9_decimal_precision_exact ⟨"decimal", 2, true, false⟩ (some "12.5, -45.75")
    rfl (by decide) (by decide)
    (by
      intro ra h
      have he : (sanitizeCoordinates ⟨"decimal", 2, true, false⟩
          (some "12.5, -45.75")).metadata.ra
          = some ⟨25/2, 12, 30, 0, some "decimal"⟩ := by decide
      rw [he] at h
      injection h with h2
      rw [← h2]
      decide)
    (by
      intro dec h
      have he : (sanitizeCoordinates ⟨"decimal", 2, true, false⟩
          (some "12.5, -45.75")).metadata.dec
          = some ⟨-183/4, -45, 45, 0, some "decimal"⟩ := by decide
      rw [he] at h
      injection h with h2
      rw [← h2]
      decide)

/-- C10: object-name results carry the literal output format
`"passthrough"`, while coordinates and already-valid results carry the
configured output format. -/
theorem C10_passthrough_output_format (opts : Options) (input : Option String) :
    ((sanitizeCoordinates opts input).metadata.inputFormat = some "object-name" →
      (sanitizeCoordinates opts input).metadata.outputFormat = some "passthrough") ∧
    ((sanitizeCoordinates opts input).metadata.inputFormat = some "coordinates" ∨
      (sanitizeCoordinates opts input).metadata.inputFormat = some "already-valid" →
      (sanitizeCoordinates opts input).metadata.outputFormat
        = some opts.outputFormat) := by
  rcases sanitize_cases opts input with ⟨_, _, _, hm⟩ | ⟨_, _, hc⟩
  · rw [hm]
    constructor
    · intro h
      exact absurd h (by decide)
    · intro h
      rcases h with h | h <;> exact absurd h (by decide)
  · rcases hc with ⟨h1, h2⟩ | ⟨h1, h2⟩ | ⟨h1, h2, _⟩
    · constructor
      · intro h
        rw [h1] at h
        exact absurd h (by decide)
      · intro _
        exact h2
    · constructor
      · intro _
        exact h2
      · intro h
        rcases h with h | h <;> (rw [h1] at h; exact absurd h (by decide))
    · constructor
      · intro h
        rw [h1] at h
        exact absurd h (by decide)
      · intro _
        exact h2

/-- C10 witness: `"M31"` carries `"passthrough"`, a parsed pair carries
the configured `"aladin"`. -/
theorem C10_passthrough_output_format_witness :
    (sanitizeCoordinates {} (some "M31")).metadata.outputFormat = some "passthrough" ∧
    (sanitizeCoordinates {} (some "16 37 13, -00 58 20")).metadata.outputFormat
      = some "aladin" :=
  ⟨(C10_passthrough_output_format {} (some "M31")).1 (by decide),
   (C10_passthrough_output_format {} (some "16 37 13, -00 58 20")).2 (Or.inl (by decide))⟩

end ClaimEval

end CoordSan
